import Mathlib

/-!
Verification of the Personify quiz scoring engine (src/quiz_model.py).

The engine is embedded shallowly over exact rationals: every numeric constant of
the Python source is a rational literal, dictionaries keyed by trait name become
total functions from String, numpy vectors become lists of rationals, and the
in-place mutation of the score vector inside the adjustment phases becomes
explicit List.set threading.  Fallible operations (indexing the active question
list) return Option.
-/

namespace Personify

/-- Direct-contribution weight W_d (quiz_model.py line 50). -/
def Wd : ℚ := 39

/-- Correlated-contribution weight W_c (quiz_model.py line 51). -/
def Wc : ℚ := 85/1000

/-- Global correlation enforcement factor (quiz_model.py line 54). -/
def correlationEnforcement : ℚ := 22/100

/-- Python max(lo, min(hi, x)); also np.clip(x, lo, hi) for lo ≤ hi. -/
def clamp (lo hi x : ℚ) : ℚ := max lo (min hi x)

/-- value_map.get(choice_value, 3) from quiz_model.py lines 85-92, 276. -/
def valueMap (v : String) : ℚ :=
  if v = "Very Low" then 1
  else if v = "Low" then 2
  else if v = "Low-Moderate" then 5/2
  else if v = "Moderate" then 3
  else if v = "High" then 4
  else if v = "Very High" then 5
  else 3

/-- adjustment_map.get(symbol, 0.0) from quiz_model.py lines 96-102, 303. -/
def adjustmentMap (sym : String) : ℚ :=
  if sym = "+" then 1/2
  else if sym = "+m" then 1/4
  else if sym = "0" then 0
  else if sym = "-m" then -(1/4)
  else if sym = "-" then -(1/2)
  else 0

/-- trait_abbr_to_full.get(abbr) from quiz_model.py lines 106-119. -/
def traitAbbrToFull (abbr : String) : Option String :=
  if abbr = "H-H" then some ("Honesty-Humility")
  else if abbr = "Em" then some ("Emotionality")
  else if abbr = "Ex" then some ("Extraversion")
  else if abbr = "Ag" then some ("Agreeableness")
  else if abbr = "Co" then some ("Conscientiousness")
  else if abbr = "Op" then some ("Openness")
  else if abbr = "Do" then some ("Dominance")
  else if abbr = "Vi" then some ("Vigilance")
  else if abbr = "ST" then some ("Self-Transcendence")
  else if abbr = "C/A" then some ("Abstract Orientation")
  else if abbr = "L/V" then some ("Value Orientation")
  else if abbr = "S/F" then some ("Flexibility")
  else none

/-- pattern_counts dictionary (quiz_model.py line 67). -/
structure PatternCounts where
  high : ℕ
  low : ℕ
  moderate : ℕ
  total : ℕ
deriving DecidableEq

/-- One entry of a question choice list: qualitative value plus the
correlation mapping abbreviation → symbol. -/
structure Choice where
  value : String
  correlations : List (String × String)
deriving DecidableEq

/-- One question: id, category string (Trait or Trait:Facet), type marker
(the Python dict key "type", here qtype), and choices. -/
structure Question where
  id : String
  category : String
  qtype : String
  choices : List Choice
deriving DecidableEq

/-- The mutable state of QuizModel that the scoring path reads and writes.
Dictionaries keyed by trait name (sum_value_weight, sum_weight) are total
functions from String; facet bookkeeping keeps the nested-dictionary shape
as association lists. -/
structure QuizState where
  test_mode : Bool
  traits : List String
  trait_correlations : List (List ℚ)
  active_questions : List Question
  current_question : ℕ
  user_answers : List ℕ
  demographics : List (String × ℕ)
  trait_scores : List ℚ
  facets : List (String × List String)
  facet_scores : List (String × List (String × ℚ))
  sum_value_weight : String → ℚ
  sum_weight : String → ℚ
  pattern_counts : PatternCounts

/-! ## Base scores, accumulators and facet smoothing -/

/-- _calculate_base_scores for one trait (quiz_model.py lines 380-396):
weighted average on the 1-5 scale, normalized to 0-1 and clamped; neutral 0.5
for traits with no accumulated weight. -/
def baseScore (s : QuizState) (trait : String) : ℚ :=
  if s.sum_weight trait > 0 then
    let avg_score := s.sum_value_weight trait / s.sum_weight trait
    let normalized_score := (avg_score - 1) / 4
    if s.test_mode then clamp 0 1 normalized_score
    else clamp (1/10) (9/10) normalized_score
  else 1/2

/-- _calculate_base_scores (quiz_model.py lines 373-397): one entry per trait,
iterating the trait list. -/
def calcBaseScores (s : QuizState) : List ℚ := s.traits.map (baseScore s)

/-- sum(self.sum_weight.values()) (quiz_model.py line 352).  The Python dict is
keyed by the distinct trait names, hence the dedup. -/
def totalWeight (s : QuizState) : ℚ := (s.traits.dedup.map s.sum_weight).sum

/-- Direct contribution to the primary trait (quiz_model.py lines 279-281),
applied only when the trait is registered. -/
def addDirect (traits : List String) (primary_trait : String) (score : ℚ)
    (acc : (String → ℚ) × (String → ℚ)) : (String → ℚ) × (String → ℚ) :=
  if primary_trait ∈ traits then
    (fun t => if t = primary_trait then acc.1 t + score * Wd else acc.1 t,
     fun t => if t = primary_trait then acc.2 t + Wd else acc.2 t)
  else acc

/-- One iteration of the _apply_correlations loop (quiz_model.py lines
299-313): resolve the abbreviation, and when the trait is registered add the
correlated contribution with weight W_c.  Unrecognized abbreviations and
unregistered traits are dropped. -/
def corrStep (traits : List String) (score : ℚ)
    (acc : (String → ℚ) × (String → ℚ)) (p : String × String) :
    (String → ℚ) × (String → ℚ) :=
  match traitAbbrToFull p.1 with
  | some full_trait =>
    if full_trait ∈ traits then
      let adjustment := adjustmentMap p.2
      let deviation := score - 3
      let correlated_score := 3 + deviation * adjustment * 2
      (fun t => if t = full_trait then acc.1 t + correlated_score * Wc else acc.1 t,
       fun t => if t = full_trait then acc.2 t + Wc else acc.2 t)
    else acc
  | none => acc

/-- _apply_correlations (quiz_model.py lines 297-313): fold the correlation
mapping of the chosen choice into the accumulators. -/
def applyCorrelations (traits : List String) (correlations : List (String × String))
    (score : ℚ) (acc : (String → ℚ) × (String → ℚ)) : (String → ℚ) × (String → ℚ) :=
  correlations.foldl (corrStep traits score) acc

/-- Numeric core of _update_facet_score (quiz_model.py lines 326-332): blend the
0-1 rescaled answer into the current facet score with weights 0.8/0.2, then
clamp to [0.1, 0.9]. -/
def updateFacetValue (current score : ℚ) : ℚ :=
  let facet_score := (score - 1) / 4
  let new_score := current * (8/10) + facet_score * (2/10)
  clamp (1/10) (9/10) new_score

/-- _update_facet_score on the nested facet-score table (quiz_model.py lines
315-332), guarded by the membership checks of line 325. -/
def updateFacetScores (facets : List (String × List String))
    (facet_scores : List (String × List (String × ℚ)))
    (primary_trait facet : String) (score : ℚ) : List (String × List (String × ℚ)) :=
  if (facets.lookup primary_trait).isSome ∧
     facet ∈ ((facet_scores.lookup primary_trait).getD []).map Prod.fst then
    facet_scores.map (fun p =>
      if p.1 = primary_trait then
        (p.1, p.2.map (fun q => if q.1 = facet then (q.1, updateFacetValue q.2 score) else q))
      else p)
  else facet_scores

/-- Response-pattern tally update (quiz_model.py lines 267-273). -/
def updatePatternCounts (pc : PatternCounts) (choice_value : String) : PatternCounts :=
  let pc :=
    if choice_value = "High" ∨ choice_value = "Very High" then
      { pc with high := pc.high + 1 }
    else if choice_value = "Low" ∨ choice_value = "Very Low" then
      { pc with low := pc.low + 1 }
    else
      { pc with moderate := pc.moderate + 1 }
  { pc with total := pc.total + 1 }

/-! ## Pattern detection and Phase 1 -/

/-- high_ratio of _detect_response_pattern (quiz_model.py lines 485-490);
the denominator is max(1, total). -/
def ratioHigh (pc : PatternCounts) : ℚ := (pc.high : ℚ) / ((max 1 pc.total : ℕ) : ℚ)

/-- low_ratio of _detect_response_pattern. -/
def ratioLow (pc : PatternCounts) : ℚ := (pc.low : ℚ) / ((max 1 pc.total : ℕ) : ℚ)

/-- is_high_biased flag of _detect_response_pattern (quiz_model.py line 497). -/
def isHighBiased (pc : PatternCounts) : Bool := ratioHigh pc > 1/2

/-- is_low_biased flag of _detect_response_pattern (quiz_model.py line 498). -/
def isLowBiased (pc : PatternCounts) : Bool := ratioLow pc > 1/2

/-- Pattern-specific damping of the Phase 1 adjustment factor
(quiz_model.py lines 450-453): the factor is multiplied by this value. -/
def patternFactor (pc : PatternCounts) : ℚ :=
  if ratioHigh pc > 6/10 then 8/10
  else if ratioLow pc > 6/10 then 85/100
  else 1

/-- Phase 1 per-correlation weight (quiz_model.py lines 424-427): absolute
correlation, amplified 1.8x when negative and 1.6x when above 0.4. -/
def p1weight (c : ℚ) : ℚ :=
  let w := |c|
  let w := if c < 0 then w * (18/10) else w
  if c > 4/10 then w * (16/10) else w

/-- total_strength of Phase 1 for trait i (quiz_model.py line 443): sum of the
weights over all other traits (trait_matrix zeroes the diagonal). -/
def p1strength (row : List ℚ) (n i : ℕ) : ℚ :=
  ((List.range n).map (fun j => if j = i then 0 else p1weight (row.getD j 0))).sum

/-- The unclamped Phase 1 adjusted value for trait i (quiz_model.py lines
429-478): weighted pull toward per-trait targets, pattern and direct-score
damping, proportional pull-back toward extreme direct scores and the high/low
direct floor and ceiling.  Deviations are those of the phase entry vector. -/
def p1x (row inp dir : List ℚ) (n i : ℕ) (pf : ℚ) : ℚ :=
  let ai := inp.getD i 0
  let total_adjustment :=
    ((List.range n).map (fun j =>
      if j = i then 0
      else
        p1weight (row.getD j 0) *
          (clamp (18/100) (82/100) (1/2 + row.getD j 0 * (inp.getD j 0 - 1/2) * (14/10)) - ai) *
          (1 + |inp.getD j 0 - 1/2| * (11/10)))).sum
  let adj_factor := correlationEnforcement * (p1strength row n i / (n : ℚ)) * pf
  let di := dir.getD i 0
  let adj_factor :=
    if di > 8/10 ∨ di < 2/10 then adj_factor * (75/100)
    else if di > 7/10 ∨ di < 3/10 then adj_factor * (85/100)
    else adj_factor
  let x := ai + total_adjustment * adj_factor / p1strength row n i
  let direct_deviation := |di - 1/2|
  let x :=
    if direct_deviation > 1/4 then
      let pull_factor := (35/100) * (direct_deviation - 1/4)
      x * (1 - pull_factor) + di * pull_factor
    else x
  if di > 8/10 ∧ x < 6/10 then max x (6/10)
  else if di < 2/10 ∧ x > 4/10 then min x (4/10)
  else x

/-- _apply_phase1_adjustments for one trait (quiz_model.py lines 399-483):
skip when the correlation row is all zero or the total strength is zero,
otherwise clamp the adjusted value to [0.12, 0.88]. -/
def phase1One (tc : List (List ℚ)) (inp dir : List ℚ) (n : ℕ) (pf : ℚ) (i : ℕ) : ℚ :=
  let row := tc.getD i []
  if (row.map (fun c => |c|)).sum = 0 then inp.getD i 0
  else if 0 < p1strength row n i then
    clamp (12/100) (88/100) (p1x row inp dir n i pf)
  else inp.getD i 0

/-- _apply_phase1_adjustments (quiz_model.py lines 399-483).  Each entry of the
output depends only on the phase entry vector (the loop reads the deviation
snapshot taken before the loop and writes only index i at iteration i), so the
phase is an index-wise map; n_traits equals the vector length. -/
def phase1 (tc : List (List ℚ)) (pc : PatternCounts) (inp dir : List ℚ) : List ℚ :=
  (List.range inp.length).map (phase1One tc inp dir inp.length (patternFactor pc))

/-! ## Phase 2: pair-specific reconciliation -/

/-- Pair-specific parameters (quiz_model.py lines 57-64, 601). -/
structure PairParams where
  force_factor : ℚ
  threshold : ℚ
  min_score : ℚ
deriving DecidableEq

/-- pair_specific_params lookup in dictionary order (quiz_model.py lines 57-64). -/
def pairSpecificParams (t1 t2 : String) : Option PairParams :=
  if t1 = "Agreeableness" ∧ t2 = "Vigilance" then some ⟨22/10, 8/100, 19/100⟩
  else if t1 = "Agreeableness" ∧ t2 = "Dominance" then some ⟨21/10, 8/100, 19/100⟩
  else if t1 = "Conscientiousness" ∧ t2 = "Flexibility" then some ⟨23/10, 8/100, 16/100⟩
  else if t1 = "Extraversion" ∧ t2 = "Dominance" then some ⟨2, 8/100, 21/100⟩
  else if t1 = "Openness" ∧ t2 = "Self-Transcendence" then some ⟨19/10, 8/100, 21/100⟩
  else if t1 = "Openness" ∧ t2 = "Abstract Orientation" then some ⟨19/10, 8/100, 21/100⟩
  else none

/-- _get_pair_params (quiz_model.py lines 588-605): the pair, then the reversed
pair, then the default {1.4, 0.15, 0.15}.  The per-call memo cache has no
semantic content. -/
def getPairParams (t1 t2 : String) : PairParams :=
  match pairSpecificParams t1 t2, pairSpecificParams t2 t1 with
  | some p, _ => p
  | none, some p => p
  | none, none => ⟨14/10, 15/100, 15/100⟩

/-- strong-direct-signal test of Phase 2 (quiz_model.py lines 507-508). -/
def strongDirect (x : ℚ) : Bool := decide (x > 8/10) || decide (x < 2/10)

/-- New value assigned by _adjust_negative_correlation to the forced trait
(quiz_model.py lines 524-534): mirror the other trait across neutral, with
force reduced 30 percent for a strong own direct signal, then pulled back up
when the own direct score exceeds 0.65. -/
def negNewVal (aOther dSelf corr ff ms : ℚ) (strongSelf : Bool) : ℚ :=
  let force_reduction : ℚ := if strongSelf then 3/10 else 0
  let effective_force := ff * (1 - force_reduction)
  let v := 1/2 - (aOther - 1/2) * |corr| * effective_force
  if dSelf > 65/100 then
    let pull_strength := (dSelf - 65/100) * 2
    max v (ms + pull_strength * (25/100))
  else v

/-- Final clamp of _adjust_negative_correlation (quiz_model.py lines 550-554):
guaranteed minimum min_score, raised by 0.1 for a strong direct signal, and
cap 0.9. -/
def negClip (ms : ℚ) (strong : Bool) (x : ℚ) : ℚ :=
  max (ms + (if strong then 1/10 else 0)) (min (9/10) x)

/-- _adjust_negative_correlation (quiz_model.py lines 501-554).  When both
scores sit on the same side of neutral, the trait closer to neutral (or with
the weaker direct signal) is forced across; both indices are then clamped to
[min_score (+0.1 for strong direct), 0.9] unconditionally. -/
def adjustNeg (d : List ℚ) (i j : ℕ) (corr ff ms : ℚ) (a : List ℚ) : List ℚ :=
  let a1 :=
    if (a.getD i 0 > 1/2 ∧ a.getD j 0 > 1/2) ∨ (a.getD i 0 < 1/2 ∧ a.getD j 0 < 1/2) then
      if (|a.getD i 0 - 1/2| < |a.getD j 0 - 1/2|) ∨
         (strongDirect (d.getD j 0) ∧ ¬ strongDirect (d.getD i 0)) then
        a.set i (negNewVal (a.getD j 0) (d.getD i 0) corr ff ms (strongDirect (d.getD i 0)))
      else
        a.set j (negNewVal (a.getD i 0) (d.getD j 0) corr ff ms (strongDirect (d.getD j 0)))
    else a
  let a2 := a1.set i (negClip ms (strongDirect (d.getD i 0)) (a1.getD i 0))
  a2.set j (negClip ms (strongDirect (d.getD j 0)) (a2.getD j 0))

/-- New value assigned by _adjust_positive_correlation to the forced trait
(quiz_model.py lines 617-645): move to the same side as the other trait with
force_factor * 1.2, then pull back toward a conflicting direct signal. -/
def posNewVal (aOther dSelf corr ff : ℚ) : ℚ :=
  let force_factor := ff * (12/10)
  let deviation := aOther - 1/2
  let v := 1/2 + deviation * |corr| * force_factor
  if dSelf < 4/10 ∧ v > 1/2 then
    let pull_strength := (4/10 - dSelf) * (15/10)
    min v (1/2 + pull_strength * (2/10))
  else if dSelf > 6/10 ∧ v < 1/2 then
    let pull_strength := (dSelf - 6/10) * (15/10)
    max v (1/2 - pull_strength * (2/10))
  else v

/-- Final clamp of _adjust_positive_correlation (quiz_model.py lines 650-652):
range [min_score, 0.9]. -/
def posClip (ms x : ℚ) : ℚ := max ms (min (9/10) x)

/-- _adjust_positive_correlation (quiz_model.py lines 607-652): force opposite
sides to the same side, then clamp both indices to [min_score, 0.9]. -/
def adjustPos (d : List ℚ) (i j : ℕ) (corr ff ms : ℚ) (a : List ℚ) : List ℚ :=
  let a1 :=
    if (a.getD i 0 > 1/2 ∧ a.getD j 0 < 1/2) ∨ (a.getD i 0 < 1/2 ∧ a.getD j 0 > 1/2) then
      if |a.getD i 0 - 1/2| < |a.getD j 0 - 1/2| then
        a.set i (posNewVal (a.getD j 0) (d.getD i 0) corr ff)
      else
        a.set j (posNewVal (a.getD i 0) (d.getD j 0) corr ff)
    else a
  let a2 := a1.set i (posClip ms (a1.getD i 0))
  a2.set j (posClip ms (a2.getD j 0))

/-- One (i, j) iteration of _apply_phase2_adjustments (quiz_model.py lines
560-584): skip weak correlations (< 0.45 absolute) and pairs where either
score is within the pair threshold of neutral. -/
def phase2Step (traits : List String) (tc : List (List ℚ)) (d : List ℚ)
    (a : List ℚ) (ij : ℕ × ℕ) : List ℚ :=
  let correlation := (tc.getD ij.1 []).getD ij.2 0
  let params := getPairParams (traits.getD ij.1 ("")) (traits.getD ij.2 (""))
  if |correlation| < 45/100 then a
  else if |a.getD ij.1 0 - 1/2| ≥ params.threshold ∧
          |a.getD ij.2 0 - 1/2| ≥ params.threshold then
    if correlation < 0 then adjustNeg d ij.1 ij.2 correlation params.force_factor params.min_score a
    else adjustPos d ij.1 ij.2 correlation params.force_factor params.min_score a
  else a

/-- The ordered pair list of the Phase 2 double loop:
for i in range(n): for j in range(i+1, n). -/
def pairList (n : ℕ) : List (ℕ × ℕ) :=
  (List.range n).flatMap (fun i => ((List.range n).drop (i + 1)).map (fun j => (i, j)))

/-- _apply_phase2_adjustments (quiz_model.py lines 556-586): sequential
in-place pass over all unordered pairs. -/
def phase2 (traits : List String) (tc : List (List ℚ)) (d a : List ℚ) : List ℚ :=
  (pairList traits.length).foldl (phase2Step traits tc d) a

/-! ## Phase 3: critical pairs -/

/-- The hard-coded critical pair list of _apply_phase3_adjustments
(quiz_model.py lines 657-664). -/
def criticalPairs : List (String × String × ℚ) :=
  [("Agreeableness", "Vigilance", -(60/100)),
   ("Agreeableness", "Dominance", -(55/100)),
   ("Conscientiousness", "Flexibility", -(72/100)),
   ("Extraversion", "Dominance", 56/100),
   ("Openness", "Self-Transcendence", 70/100),
   ("Openness", "Abstract Orientation", 65/100)]

/-- list.index as an Option (quiz_model.py lines 668-669 with the ValueError
handler of lines 724-726 turning a missing trait into a skip). -/
def idxOf? (t : String) : List String → Option ℕ
  | [] => none
  | x :: xs => if x = t then some 0 else (idxOf? t xs).map (· + 1)

/-- Body of one critical-pair iteration of _apply_phase3_adjustments
(quiz_model.py lines 671-722), once both trait indices are resolved: when
either score deviates more than 0.1 from neutral, a same-side (negative
expected correlation) or opposite-side (positive) inconsistency forces the
trait closer to neutral (or with weaker direct strength) across, and both
indices are clipped to [0.15, 0.85]. -/
def phase3StepCore (d a : List ℚ) (idx1 idx2 : ℕ) (expected_corr : ℚ) : List ℚ :=
  let score1 := a.getD idx1 0
  let score2 := a.getD idx2 0
  let direct_strength1 := |d.getD idx1 0 - 1/2| * 2
  let direct_strength2 := |d.getD idx2 0 - 1/2| * 2
  if |score1 - 1/2| > 1/10 ∨ |score2 - 1/2| > 1/10 then
    let a1 :=
      if expected_corr < 0 then
        if (score1 > 1/2 ∧ score2 > 1/2) ∨ (score1 < 1/2 ∧ score2 < 1/2) then
          if |score1 - 1/2| < |score2 - 1/2| ∨ direct_strength1 < direct_strength2 then
            a.set idx1 (1/2 - (score2 - 1/2) * |expected_corr| *
              ((19/10) * (1 - direct_strength1 * (4/10))))
          else
            a.set idx2 (1/2 - (score1 - 1/2) * |expected_corr| *
              ((19/10) * (1 - direct_strength2 * (4/10))))
        else a
      else
        if (score1 > 1/2 ∧ score2 < 1/2) ∨ (score1 < 1/2 ∧ score2 > 1/2) then
          if |score1 - 1/2| < |score2 - 1/2| ∨ direct_strength1 < direct_strength2 then
            a.set idx1 (1/2 + (score2 - 1/2) * expected_corr *
              ((18/10) * (1 - direct_strength1 * (4/10))))
          else
            a.set idx2 (1/2 + (score1 - 1/2) * expected_corr *
              ((18/10) * (1 - direct_strength2 * (4/10))))
        else a
    let a2 := a1.set idx1 (clamp (15/100) (85/100) (a1.getD idx1 0))
    a2.set idx2 (clamp (15/100) (85/100) (a2.getD idx2 0))
  else a

/-- One critical-pair iteration of _apply_phase3_adjustments (quiz_model.py
lines 666-726): resolve both trait indices, skipping the pair silently when a
trait is missing from the registry. -/
def phase3Step (traits : List String) (d : List ℚ) (a : List ℚ)
    (p : String × String × ℚ) : List ℚ :=
  match idxOf? p.1 traits, idxOf? p.2.1 traits with
  | some idx1, some idx2 => phase3StepCore d a idx1 idx2 p.2.2
  | _, _ => a

/-- _apply_phase3_adjustments (quiz_model.py lines 654-728). -/
def phase3 (traits : List String) (d a : List ℚ) : List ℚ :=
  criticalPairs.foldl (phase3Step traits d) a

/-! ## Phase 4: direct-score floors and ceilings -/

/-- np.where(mask ∧ adjusted < c, max(adjusted, c), adjusted) elementwise. -/
def floorIf (mask : Prop) [Decidable mask] (c a : ℚ) : ℚ :=
  if mask ∧ a < c then max a c else a

/-- np.where(mask ∧ adjusted > c, min(adjusted, c), adjusted) elementwise. -/
def ceilIf (mask : Prop) [Decidable mask] (c a : ℚ) : ℚ :=
  if mask ∧ a > c then min a c else a

/-- _apply_phase4_adjustments for one trait (quiz_model.py lines 730-778):
the seven masked floors and ceilings in source order. -/
def phase4One (dv av : ℚ) : ℚ :=
  ceilIf (2/10 ≤ dv ∧ dv < 3/10) (65/100)
    (ceilIf (1/10 ≤ dv ∧ dv < 2/10) (1/2)
      (ceilIf (dv < 1/10) (35/100)
        (floorIf (dv > 6/10 ∧ dv ≤ 7/10) (25/100)
          (floorIf (dv > 7/10 ∧ dv ≤ 8/10) (35/100)
            (floorIf (dv > 8/10 ∧ dv ≤ 9/10) (1/2)
              (floorIf (dv > 9/10) (65/100) av))))))

/-- _apply_phase4_adjustments (quiz_model.py lines 730-778), elementwise over
the direct and adjusted vectors. -/
def phase4 (d a : List ℚ) : List ℚ := List.zipWith phase4One d a

/-! ## calculate_scores and the answer path -/

/-- The trait score vector computed by calculate_scores (quiz_model.py lines
334-371): base scores in test mode or while total weight is at most 10,
otherwise the four-phase pipeline seeded with the base scores, with the base
scores doubling as the read-only direct scores. -/
def calculateScoresVec (s : QuizState) : List ℚ :=
  let base_scores := calcBaseScores s
  if s.test_mode then base_scores
  else
    let direct_scores := base_scores
    if totalWeight s > 10 then
      phase4 direct_scores
        (phase3 s.traits direct_scores
          (phase2 s.traits s.trait_correlations direct_scores
            (phase1 s.trait_correlations s.pattern_counts base_scores direct_scores)))
    else base_scores

/-- calculate_scores as a state transformer: only trait_scores changes. -/
def calculateScores (s : QuizState) : QuizState :=
  { s with trait_scores := calculateScoresVec s }

/-- process_answer (quiz_model.py lines 234-295).  None models the IndexError
raised when no active question remains at the cursor; every successful path
appends the answer and advances the cursor.  Demographic questions only store
the answer; an out-of-range index is dropped without scoring; otherwise the
pattern tally, the accumulators (direct plus correlated contributions), the
facet table and finally the recomputed trait scores are updated. -/
def processAnswer (s : QuizState) (choice_index : ℕ) : Option QuizState :=
  match s.active_questions.get? s.current_question with
  | none => none
  | some question =>
    let s := { s with user_answers := s.user_answers ++ [choice_index] }
    if question.qtype = "demographic" then
      some { s with demographics := (question.id, choice_index) :: s.demographics,
                    current_question := s.current_question + 1 }
    else
      let category := question.category
      let primary_trait :=
        if category.contains ':' then ((category.splitOn (":")).getD 0 ("")).trim
        else category
      if question.choices.length ≤ choice_index then
        some { s with current_question := s.current_question + 1 }
      else
        let choice := question.choices.getD choice_index { value := "Moderate", correlations := [] }
        let score := valueMap choice.value
        let acc := applyCorrelations s.traits choice.correlations score
          (addDirect s.traits primary_trait score (s.sum_value_weight, s.sum_weight))
        let s1 : QuizState :=
          { s with
            pattern_counts := updatePatternCounts s.pattern_counts choice.value,
            sum_value_weight := acc.1,
            sum_weight := acc.2,
            facet_scores :=
              if category.contains ':' ∧ primary_trait ∈ s.traits then
                updateFacetScores s.facets s.facet_scores primary_trait
                  (((category.splitOn (":")).getD 1 ("")).trim) score
              else s.facet_scores }
        let s2 := calculateScores s1
        some { s2 with current_question := s2.current_question + 1 }

/-! ## Lifecycle -/

/-- is_quiz_complete (quiz_model.py lines 780-786): False with no active
questions, else cursor at or past the end. -/
def isQuizComplete (s : QuizState) : Bool :=
  if s.active_questions.isEmpty then false
  else decide (s.current_question ≥ s.active_questions.length)

/-- end_assessment_now (quiz_model.py lines 788-798): final recomputation,
then the cursor jumps to the end when any active question exists. -/
def endAssessmentNow (s : QuizState) : QuizState :=
  let s := calculateScores s
  if s.active_questions.isEmpty then s
  else { s with current_question := s.active_questions.length }

/-! ## Generic helper lemmas -/

theorem le_clamp (lo hi x : ℚ) : lo ≤ clamp lo hi x := le_max_left _ _

theorem clamp_le {lo hi : ℚ} (x : ℚ) (h : lo ≤ hi) : clamp lo hi x ≤ hi :=
  max_le h (min_le_left _ _)

theorem clamp_lt_of_lt {lo hi x c : ℚ} (h1 : lo < c) (h2 : x < c) : clamp lo hi x < c :=
  max_lt h1 (lt_of_le_of_lt (min_le_right _ _) h2)

theorem lt_clamp_of_lt {lo hi x c : ℚ} (h1 : c < hi) (h2 : c < x) : c < clamp lo hi x :=
  lt_of_lt_of_le (lt_min h1 h2) (le_max_right _ _)

theorem getD_set_self (l : List ℚ) (i : ℕ) (v : ℚ) (h : i < l.length) :
    (l.set i v).getD i 0 = v := by
  induction l generalizing i with
  | nil => simp at h
  | cons x xs ih =>
    cases i with
    | zero => simp [List.set, List.getD]
    | succ n =>
      simp only [List.set, List.getD, List.get?] at *
      exact ih n (by simpa using h)

theorem getD_set_ne (l : List ℚ) (i k : ℕ) (v : ℚ) (h : k ≠ i) :
    (l.set i v).getD k 0 = l.getD k 0 := by
  induction l generalizing i k with
  | nil => simp [List.set]
  | cons x xs ih =>
    cases i with
    | zero =>
      cases k with
      | zero => exact absurd rfl h
      | succ m => simp [List.set, List.getD]
    | succ n =>
      cases k with
      | zero => simp [List.set, List.getD]
      | succ m =>
        simp only [List.set, List.getD, List.get?]
        exact ih n m (fun hc => h (by omega))

theorem getD_eq_get (l : List ℚ) (n : ℕ) (h : n < l.length) :
    l.getD n 0 = l.get ⟨n, h⟩ := by
  induction l generalizing n with
  | nil => simp at h
  | cons x xs ih =>
    cases n with
    | zero => simp [List.getD]
    | succ m =>
      simp only [List.getD, List.get?, List.get]
      exact ih m (by simpa using h)

theorem foldl_preserve {α : Type} {P : List ℚ → Prop} {f : List ℚ → α → List ℚ}
    (hf : ∀ a x, P a → P (f a x)) :
    ∀ (l : List α) (a : List ℚ), P a → P (l.foldl f a) := by
  intro l
  induction l with
  | nil => intro a ha; exact ha
  | cons x xs ih => intro a ha; exact ih _ (hf a x ha)

theorem mem_zipWith_decomp {f : ℚ → ℚ → ℚ} {d a : List ℚ} {x : ℚ}
    (hx : x ∈ List.zipWith f d a) :
    ∃ k, k < d.length ∧ k < a.length ∧ x = f (d.getD k 0) (a.getD k 0) := by
  induction d generalizing a with
  | nil => simp [List.zipWith] at hx
  | cons y ys ih =>
    cases a with
    | nil => simp [List.zipWith] at hx
    | cons z zs =>
      simp only [List.zipWith, List.mem_cons] at hx
      rcases hx with h | h
      · exact ⟨0, by simp, by simp, by simpa [List.getD] using h⟩
      · obtain ⟨k, hk1, hk2, hk3⟩ := ih h
        exact ⟨k + 1, by simpa using hk1, by simpa using hk2, by simpa [List.getD] using hk3⟩

theorem getD_range_map (f : ℕ → ℚ) {n k : ℕ} (h : k < n) :
    ((List.range n).map f).getD k 0 = f k := by
  have hk : k < ((List.range n).map f).length := by simpa using h
  rw [getD_eq_get _ _ hk]
  simp

/-- All entries of a score vector lie in [lo, hi]. -/
def InRange (lo hi : ℚ) (l : List ℚ) : Prop :=
  ∀ k, k < l.length → lo ≤ l.getD k 0 ∧ l.getD k 0 ≤ hi

theorem InRange.of_forall_mem {lo hi : ℚ} {l : List ℚ}
    (h : ∀ x ∈ l, lo ≤ x ∧ x ≤ hi) : InRange lo hi l := by
  intro k hk
  rw [getD_eq_get _ _ hk]
  exact h _ (l.get_mem _ _)

theorem InRange.mem {lo hi : ℚ} {l : List ℚ} (h : InRange lo hi l) :
    ∀ x ∈ l, lo ≤ x ∧ x ≤ hi := by
  intro x hx
  obtain ⟨⟨k, hk⟩, rfl⟩ := List.mem_iff_get.mp hx
  rw [← getD_eq_get _ _ hk]
  exact h k hk

/-! ## Sample states used by the concrete witnesses -/

/-- A one-choice non-demographic question on the Agreeableness trait. -/
def sampleQuestion : Question :=
  { id := "q1", category := "Agreeableness", qtype := "normal",
    choices := [{ value := "High", correlations := [] }] }

/-- A fresh single-trait engine state in production mode. -/
def sampleState : QuizState :=
  { test_mode := false
    traits := ["Agreeableness"]
    trait_correlations := [[0]]
    active_questions := [sampleQuestion]
    current_question := 0
    user_answers := []
    demographics := []
    trait_scores := [1/2]
    facets := []
    facet_scores := []
    sum_value_weight := fun _ => 0
    sum_weight := fun _ => 0
    pattern_counts := ⟨0, 0, 0, 0⟩ }

/-- The inert state the engine degrades to when loading fails: no traits and
no active questions (quiz_model.py lines 140-148 with lines 21-22). -/
def noQuestionsState : QuizState :=
  { test_mode := false
    traits := []
    trait_correlations := []
    active_questions := []
    current_question := 0
    user_answers := []
    demographics := []
    trait_scores := []
    facets := []
    facet_scores := []
    sum_value_weight := fun _ => 0
    sum_weight := fun _ => 0
    pattern_counts := ⟨0, 0, 0, 0⟩ }

/-! ## Claim C2: threshold gate -/

/-- Claim C2: with total accumulated weight at most 10 and test_mode false,
calculate_scores returns exactly the base scores; the adjustment pipeline
does not run. -/
theorem threshold_gate (s : QuizState) (hm : s.test_mode = false)
    (hw : totalWeight s ≤ 10) :
    (calculateScores s).trait_scores = calcBaseScores s := by
  unfold calculateScores calculateScoresVec
  rw [hm]
  simp [not_lt.mpr hw]

/-- Witness for threshold_gate at a concrete fresh state with zero weight. -/
theorem threshold_gate_witness :
    sampleState.test_mode = false ∧ totalWeight sampleState ≤ 10 ∧
    (calculateScores sampleState).trait_scores = calcBaseScores sampleState :=
  ⟨rfl, by norm_num [totalWeight, sampleState, List.dedup],
   threshold_gate sampleState rfl (by norm_num [totalWeight, sampleState, List.dedup])⟩

/-! ## Claim C5: idempotence / purity of recomputation -/

/-- Claim C5: calling calculate_scores twice in a row yields the identical
trait score vector, because the computed vector is a pure function of the
accumulators, the pattern counters and the static configuration — it never
reads the previous trait_scores. -/
theorem calculate_scores_idempotent :
    (∀ s : QuizState,
      (calculateScores (calculateScores s)).trait_scores = (calculateScores s).trait_scores) ∧
    (∀ s₁ s₂ : QuizState, s₁.test_mode = s₂.test_mode → s₁.traits = s₂.traits →
      s₁.trait_correlations = s₂.trait_correlations →
      s₁.sum_value_weight = s₂.sum_value_weight → s₁.sum_weight = s₂.sum_weight →
      s₁.pattern_counts = s₂.pattern_counts →
      (calculateScores s₁).trait_scores = (calculateScores s₂).trait_scores) := by
  constructor
  · intro s; rfl
  · intro s₁ s₂ h1 h2 h3 h4 h5 h6
    cases s₁
    cases s₂
    simp only at h1 h2 h3 h4 h5 h6
    subst h1 h2 h3 h4 h5 h6
    rfl

/-- Witness for calculate_scores_idempotent: two states differing only in the
cursor and the stored trait scores produce the same recomputed vector. -/
theorem calculate_scores_idempotent_witness :
    (calculateScores { sampleState with current_question := 1, trait_scores := [9/10] }).trait_scores
      = (calculateScores sampleState).trait_scores :=
  calculate_scores_idempotent.2 _ _ rfl rfl rfl rfl rfl rfl

/-! ## Claim C6: facet score range -/

/-- Counterexample to claim C6: facet scores start at the neutral 0.5
(quiz_model.py line 158), and eight consecutive Very Low answers (raw score 1)
drive the facet score to exactly 0.1, the boundary of the claimed open
interval, because the blend is clamped with max(0.1, ...). -/
theorem facet_hits_lower_bound :
    (fun c => updateFacetValue c 1)^[8] (1/2) = 1/10 ∧
    ¬ (1/10 < (fun c => updateFacetValue c 1)^[8] (1/2)) := by
  have h : (fun c => updateFacetValue c 1)^[8] (1/2) = (1/10 : ℚ) := by
    norm_num [Function.iterate_succ_apply, updateFacetValue, clamp, min_def, max_def]
  exact ⟨h, by rw [h]; exact lt_irrefl _⟩

/-- Claim C6 amended: after every facet update the facet score lies in the
closed interval [0.1, 0.9]; the endpoints are attainable, so the interval is
not open. -/
theorem facet_update_bounds (current score : ℚ) :
    1/10 ≤ updateFacetValue current score ∧ updateFacetValue current score ≤ 9/10 := by
  unfold updateFacetValue
  exact ⟨le_clamp _ _ _, clamp_le _ (by norm_num)⟩

/-! ## Claim C7: pattern damping thresholds -/

/-- Counterexample to claim C7: with 11 high answers out of 20 the respondent
is classified high-biased (ratio 0.55 > 0.5), yet Phase 1 multiplies the
adjustment factor by 1, not by 0.8 — Phase 1 compares the raw ratio against
0.6, not against the 0.5 classification threshold. -/
theorem pattern_damping_counterexample :
    isHighBiased ⟨11, 0, 9, 20⟩ = true ∧ patternFactor ⟨11, 0, 9, 20⟩ = 1 := by
  constructor
  · norm_num [isHighBiased, ratioHigh]
  · norm_num [patternFactor, ratioHigh, ratioLow]

/-- Claim C7 amended: Phase 1 multiplies the per-trait adjustment factor by
0.8 when the high-answer ratio exceeds 0.6, and otherwise by 0.85 when the
low-answer ratio exceeds 0.6. -/
theorem pattern_damping_amended (pc : PatternCounts) :
    (ratioHigh pc > 6/10 → patternFactor pc = 8/10) ∧
    (¬ ratioHigh pc > 6/10 → ratioLow pc > 6/10 → patternFactor pc = 85/100) := by
  unfold patternFactor
  constructor
  · intro h; rw [if_pos h]
  · intro h1 h2; rw [if_neg h1, if_pos h2]

/-- Witness for pattern_damping_amended at 14 high answers out of 20. -/
theorem pattern_damping_amended_witness :
    ratioHigh ⟨14, 0, 6, 20⟩ > 6/10 ∧ patternFactor ⟨14, 0, 6, 20⟩ = 8/10 :=
  ⟨by norm_num [ratioHigh],
   (pattern_damping_amended ⟨14, 0, 6, 20⟩).1 (by norm_num [ratioHigh])⟩

/-! ## Claim C8: completion boolean -/

/-- Counterexample to claim C8: in the reachable inert state with no active
questions the cursor condition current_question ≥ active count holds (0 ≥ 0),
yet is_quiz_complete returns False. -/
theorem completion_empty_counterexample :
    isQuizComplete noQuestionsState = false ∧
    noQuestionsState.active_questions.length ≤ noQuestionsState.current_question := by
  constructor
  · rfl
  · decide

/-- Claim C8 amended: whenever at least one active question exists, the
completion check returns true exactly when the cursor has reached the active
question count, and end_assessment_now leaves the engine reported complete;
with an empty active list the check returns false instead. -/
theorem completion_amended (s : QuizState) (h : s.active_questions ≠ []) :
    (isQuizComplete s = true ↔ s.active_questions.length ≤ s.current_question) ∧
    isQuizComplete (endAssessmentNow s) = true := by
  have hne : s.active_questions.isEmpty = false := by
    simpa using h
  constructor
  · unfold isQuizComplete
    rw [hne]
    simp [ge_iff_le]
  · unfold endAssessmentNow
    simp only [calculateScores, hne, Bool.false_eq_true, if_false]
    unfold isQuizComplete
    simp [hne, ge_iff_le]

/-- Witness for completion_amended at the one-question sample state. -/
theorem completion_amended_witness :
    (isQuizComplete sampleState = true ↔
      sampleState.active_questions.length ≤ sampleState.current_question) ∧
    isQuizComplete (endAssessmentNow sampleState) = true :=
  completion_amended sampleState (by decide)

/-! ## Claim C3: lenient skip of out-of-range answers -/

/-- Claim C3: when the answer index is out of range for the active question,
process_answer succeeds, advances the cursor by one and changes neither the
accumulators, the pattern counters, the facet scores nor the trait scores. -/
theorem lenient_skip (s : QuizState) (choice_index : ℕ) (question : Question)
    (hq : s.active_questions.get? s.current_question = some question)
    (hoor : question.choices.length ≤ choice_index) :
    (processAnswer s choice_index).isSome = true ∧
    ((processAnswer s choice_index).getD s).current_question = s.current_question + 1 ∧
    ((processAnswer s choice_index).getD s).sum_value_weight = s.sum_value_weight ∧
    ((processAnswer s choice_index).getD s).sum_weight = s.sum_weight ∧
    ((processAnswer s choice_index).getD s).pattern_counts = s.pattern_counts ∧
    ((processAnswer s choice_index).getD s).facet_scores = s.facet_scores ∧
    ((processAnswer s choice_index).getD s).trait_scores = s.trait_scores := by
  unfold processAnswer
  split
  · rename_i hnone
    rw [hq] at hnone
    exact absurd hnone (by simp)
  · rename_i question2 hsome
    rw [hq] at hsome
    injection hsome with hqq
    subst hqq
    split_ifs <;> first | exact ⟨rfl, rfl, rfl, rfl, rfl, rfl, rfl⟩ | omega

/-- Witness for lenient_skip: index 5 into the one-choice sample question. -/
theorem lenient_skip_witness :
    (processAnswer sampleState 5).isSome = true ∧
    ((processAnswer sampleState 5).getD sampleState).current_question =
      sampleState.current_question + 1 ∧
    ((processAnswer sampleState 5).getD sampleState).sum_value_weight =
      sampleState.sum_value_weight ∧
    ((processAnswer sampleState 5).getD sampleState).sum_weight = sampleState.sum_weight ∧
    ((processAnswer sampleState 5).getD sampleState).pattern_counts =
      sampleState.pattern_counts ∧
    ((processAnswer sampleState 5).getD sampleState).facet_scores =
      sampleState.facet_scores ∧
    ((processAnswer sampleState 5).getD sampleState).trait_scores =
      sampleState.trait_scores :=
  lenient_skip sampleState 5 sampleQuestion rfl (by norm_num [sampleQuestion])

/-! ## Claim C9: accumulator monotonicity -/

theorem valueMap_bounds (v : String) : 1 ≤ valueMap v ∧ valueMap v ≤ 5 := by
  unfold valueMap
  split_ifs <;> norm_num

theorem adjustmentMap_bounds (sym : String) :
    -(1/2) ≤ adjustmentMap sym ∧ adjustmentMap sym ≤ 1/2 := by
  unfold adjustmentMap
  split_ifs <;> norm_num

theorem addDirect_mono (traits : List String) (pt : String) (score : ℚ)
    (acc : (String → ℚ) × (String → ℚ)) (hs : 1 ≤ score) (t : String) :
    acc.1 t ≤ (addDirect traits pt score acc).1 t ∧
    acc.2 t ≤ (addDirect traits pt score acc).2 t := by
  have hWd : (0:ℚ) ≤ Wd := by norm_num [Wd]
  have hsc : (0:ℚ) ≤ score * Wd := mul_nonneg (by linarith) hWd
  unfold addDirect
  split_ifs with hmem
  · constructor
    · dsimp only
      split_ifs with ht
      · linarith
      · exact le_rfl
    · dsimp only
      split_ifs with ht
      · linarith
      · exact le_rfl
  · exact ⟨le_rfl, le_rfl⟩

theorem corrStep_mono (traits : List String) (score : ℚ)
    (acc : (String → ℚ) × (String → ℚ)) (p : String × String)
    (h1 : 1 ≤ score) (h5 : score ≤ 5) (t : String) :
    acc.1 t ≤ (corrStep traits score acc p).1 t ∧
    acc.2 t ≤ (corrStep traits score acc p).2 t := by
  have hb := adjustmentMap_bounds p.2
  have hcs : (0:ℚ) ≤ 3 + (score - 3) * adjustmentMap p.2 * 2 := by
    nlinarith [mul_nonneg (by linarith : (0:ℚ) ≤ score - 1)
                 (by linarith [hb.1] : (0:ℚ) ≤ 1/2 + adjustmentMap p.2),
               mul_nonneg (by linarith : (0:ℚ) ≤ 5 - score)
                 (by linarith [hb.2] : (0:ℚ) ≤ 1/2 - adjustmentMap p.2)]
  have hWc : (0:ℚ) ≤ Wc := by norm_num [Wc]
  unfold corrStep
  cases hfull : traitAbbrToFull p.1 with
  | none => exact ⟨le_rfl, le_rfl⟩
  | some full_trait =>
    dsimp only
    split_ifs with hmem
    · constructor
      · dsimp only
        split_ifs with ht
        · nlinarith [mul_nonneg hcs hWc]
        · exact le_rfl
      · dsimp only
        split_ifs with ht
        · linarith [hWc]
        · exact le_rfl
    · exact ⟨le_rfl, le_rfl⟩

theorem applyCorrelations_mono (traits : List String)
    (correlations : List (String × String)) (score : ℚ)
    (acc : (String → ℚ) × (String → ℚ)) (h1 : 1 ≤ score) (h5 : score ≤ 5) (t : String) :
    acc.1 t ≤ (applyCorrelations traits correlations score acc).1 t ∧
    acc.2 t ≤ (applyCorrelations traits correlations score acc).2 t := by
  unfold applyCorrelations
  induction correlations generalizing acc with
  | nil => exact ⟨le_rfl, le_rfl⟩
  | cons p ps ih =>
    have hstep := corrStep_mono traits score acc p h1 h5 t
    have hrest := ih (corrStep traits score acc p)
    exact ⟨le_trans hstep.1 hrest.1, le_trans hstep.2 hrest.2⟩

/-- Claim C9: every successful process_answer call leaves each trait's
sum_weight and sum_value_weight at or above their previous values — all
contributions added on any path are nonnegative. -/
theorem accumulators_monotone (s : QuizState) (choice_index : ℕ) (s' : QuizState)
    (h : processAnswer s choice_index = some s') (t : String) :
    s.sum_weight t ≤ s'.sum_weight t ∧
    s.sum_value_weight t ≤ s'.sum_value_weight t := by
  unfold processAnswer at h
  split at h
  · exact absurd h (by simp)
  · rename_i question hq
    split_ifs at h with hdem hoor
    · simp only [Option.some.injEq] at h
      subst h
      exact ⟨le_rfl, le_rfl⟩
    · simp only [Option.some.injEq] at h
      subst h
      exact ⟨le_rfl, le_rfl⟩
    · simp only [Option.some.injEq] at h
      subst h
      have hsv := valueMap_bounds (question.choices.getD choice_index
        { value := "Moderate", correlations := [] }).value
      have hdir := addDirect_mono s.traits
        (if question.category.contains ':' then
          ((question.category.splitOn (":")).getD 0 ("")).trim
         else question.category)
        (valueMap (question.choices.getD choice_index
          { value := "Moderate", correlations := [] }).value)
        (s.sum_value_weight, s.sum_weight) hsv.1 t
      have hcorr := applyCorrelations_mono s.traits
        (question.choices.getD choice_index { value := "Moderate", correlations := [] }).correlations
        (valueMap (question.choices.getD choice_index
          { value := "Moderate", correlations := [] }).value)
        (addDirect s.traits
          (if question.category.contains ':' then
            ((question.category.splitOn (":")).getD 0 ("")).trim
           else question.category)
          (valueMap (question.choices.getD choice_index
            { value := "Moderate", correlations := [] }).value)
          (s.sum_value_weight, s.sum_weight)) hsv.1 hsv.2 t
      exact ⟨le_trans hdir.2 hcorr.2, le_trans hdir.1 hcorr.1⟩

/-- Witness for accumulators_monotone on the out-of-range skip path of the
sample state. -/
theorem accumulators_monotone_witness :
    sampleState.sum_weight ("Agreeableness") ≤
      ({ sampleState with
          user_answers := [5],
          current_question := 1 } : QuizState).sum_weight ("Agreeableness") ∧
    sampleState.sum_value_weight ("Agreeableness") ≤
      ({ sampleState with
          user_answers := [5],
          current_question := 1 } : QuizState).sum_value_weight ("Agreeableness") :=
  accumulators_monotone sampleState 5
    { sampleState with user_answers := [5], current_question := 1 }
    (by rfl) ("Agreeableness")

/-! ## Structure lemmas for the Phase 3 step -/

theorem idxOf?_lt_length {t : String} {l : List String} {i : ℕ}
    (h : idxOf? t l = some i) : i < l.length := by
  induction l generalizing i with
  | nil => simp [idxOf?] at h
  | cons x xs ih =>
    unfold idxOf? at h
    split_ifs at h with hx
    · simp only [Option.some.injEq] at h
      simp only [List.length_cons]
      omega
    · cases hy : idxOf? t xs with
      | none => simp [hy] at h
      | some m =>
        simp only [hy, Option.map_some', Option.some.injEq] at h
        have := ih hy
        simp only [List.length_cons]
        omega

/-- Either the Phase 3 pair body leaves the vector untouched, or it rewrites
at most the two pair indices and then clips both of them to [0.15, 0.85]. -/
theorem phase3StepCore_cases (d a : List ℚ) (idx1 idx2 : ℕ) (ec : ℚ) :
    phase3StepCore d a idx1 idx2 ec = a ∨
    ∃ b : List ℚ, b.length = a.length ∧
      (∀ k, k ≠ idx1 → k ≠ idx2 → b.getD k 0 = a.getD k 0) ∧
      phase3StepCore d a idx1 idx2 ec =
        (b.set idx1 (clamp (15/100) (85/100) (b.getD idx1 0))).set idx2
          (clamp (15/100) (85/100)
            ((b.set idx1 (clamp (15/100) (85/100) (b.getD idx1 0))).getD idx2 0)) := by
  simp only [phase3StepCore]
  split_ifs with h0 h1 h2 h3 h4 h5
  · exact Or.inr ⟨_, List.length_set .., fun k hk1 hk2 => getD_set_ne _ _ _ _ hk1, rfl⟩
  · exact Or.inr ⟨_, List.length_set .., fun k hk1 hk2 => getD_set_ne _ _ _ _ hk2, rfl⟩
  · exact Or.inr ⟨a, rfl, fun k hk1 hk2 => rfl, rfl⟩
  · exact Or.inr ⟨_, List.length_set .., fun k hk1 hk2 => getD_set_ne _ _ _ _ hk1, rfl⟩
  · exact Or.inr ⟨_, List.length_set .., fun k hk1 hk2 => getD_set_ne _ _ _ _ hk2, rfl⟩
  · exact Or.inr ⟨a, rfl, fun k hk1 hk2 => rfl, rfl⟩
  · exact Or.inl rfl

theorem phase3StepCore_length (d a : List ℚ) (idx1 idx2 : ℕ) (ec : ℚ) :
    (phase3StepCore d a idx1 idx2 ec).length = a.length := by
  rcases phase3StepCore_cases d a idx1 idx2 ec with h | ⟨b, hb, _, h⟩
  · rw [h]
  · rw [h]
    simp [List.length_set, hb]

theorem phase3StepCore_getD_ne (d a : List ℚ) (idx1 idx2 : ℕ) (ec : ℚ) (k : ℕ)
    (hk1 : k ≠ idx1) (hk2 : k ≠ idx2) :
    (phase3StepCore d a idx1 idx2 ec).getD k 0 = a.getD k 0 := by
  rcases phase3StepCore_cases d a idx1 idx2 ec with h | ⟨b, hb, hframe, h⟩
  · rw [h]
  · rw [h, getD_set_ne _ _ _ _ hk2, getD_set_ne _ _ _ _ hk1]
    exact hframe k hk1 hk2

theorem phase3Step_length (traits : List String) (d a : List ℚ)
    (p : String × String × ℚ) : (phase3Step traits d a p).length = a.length := by
  unfold phase3Step
  cases hx : idxOf? p.1 traits with
  | none => rfl
  | some i1 =>
    cases hy : idxOf? p.2.1 traits with
    | none => rfl
    | some i2 => exact phase3StepCore_length d a i1 i2 p.2.2

theorem phase3Step_getD_ne (traits : List String) (d a : List ℚ)
    (t1 t2 : String) (ec : ℚ) (i1 i2 k : ℕ)
    (h1 : idxOf? t1 traits = some i1) (h2 : idxOf? t2 traits = some i2)
    (hk1 : k ≠ i1) (hk2 : k ≠ i2) :
    (phase3Step traits d a (t1, t2, ec)).getD k 0 = a.getD k 0 := by
  unfold phase3Step
  rw [show idxOf? (t1, t2, ec).1 traits = some i1 from h1,
      show idxOf? (t1, t2, ec).2.1 traits = some i2 from h2]
  exact phase3StepCore_getD_ne d a i1 i2 ec k hk1 hk2

theorem phase3Step_eq_core (traits : List String) (d a : List ℚ)
    (t1 t2 : String) (ec : ℚ) (i1 i2 : ℕ)
    (h1 : idxOf? t1 traits = some i1) (h2 : idxOf? t2 traits = some i2) :
    phase3Step traits d a (t1, t2, ec) = phase3StepCore d a i1 i2 ec := by
  unfold phase3Step
  rw [show idxOf? (t1, t2, ec).1 traits = some i1 from h1,
      show idxOf? (t1, t2, ec).2.1 traits = some i2 from h2]

/-- When either pair score deviates more than 0.1 from neutral, the Phase 3
pair body always ends by clipping both pair indices, whatever the inner
adjustment did. -/
theorem phase3StepCore_dev (d a : List ℚ) (idx1 idx2 : ℕ) (ec : ℚ)
    (hdev : |a.getD idx1 0 - 1/2| > 1/10 ∨ |a.getD idx2 0 - 1/2| > 1/10) :
    ∃ b : List ℚ, b.length = a.length ∧
      (∀ k, k ≠ idx1 → k ≠ idx2 → b.getD k 0 = a.getD k 0) ∧
      phase3StepCore d a idx1 idx2 ec =
        (b.set idx1 (clamp (15/100) (85/100) (b.getD idx1 0))).set idx2
          (clamp (15/100) (85/100)
            ((b.set idx1 (clamp (15/100) (85/100) (b.getD idx1 0))).getD idx2 0)) := by
  simp only [phase3StepCore]
  rw [if_pos hdev]
  split_ifs with h1 h2 h3 h4 h5
  · exact ⟨_, List.length_set .., fun k hk1 hk2 => getD_set_ne _ _ _ _ hk1, rfl⟩
  · exact ⟨_, List.length_set .., fun k hk1 hk2 => getD_set_ne _ _ _ _ hk2, rfl⟩
  · exact ⟨a, rfl, fun k hk1 hk2 => rfl, rfl⟩
  · exact ⟨_, List.length_set .., fun k hk1 hk2 => getD_set_ne _ _ _ _ hk1, rfl⟩
  · exact ⟨_, List.length_set .., fun k hk1 hk2 => getD_set_ne _ _ _ _ hk2, rfl⟩
  · exact ⟨a, rfl, fun k hk1 hk2 => rfl, rfl⟩

/-- With a negative expected correlation and no same-side inconsistency, the
Phase 3 pair body is exactly the clip of the two pair indices. -/
theorem phase3StepCore_noforce (d a : List ℚ) (idx1 idx2 : ℕ) (ec : ℚ)
    (hec : ec < 0)
    (hdev : |a.getD idx1 0 - 1/2| > 1/10 ∨ |a.getD idx2 0 - 1/2| > 1/10)
    (hns : ¬ ((a.getD idx1 0 > 1/2 ∧ a.getD idx2 0 > 1/2) ∨
              (a.getD idx1 0 < 1/2 ∧ a.getD idx2 0 < 1/2))) :
    phase3StepCore d a idx1 idx2 ec =
      (a.set idx1 (clamp (15/100) (85/100) (a.getD idx1 0))).set idx2
        (clamp (15/100) (85/100)
          ((a.set idx1 (clamp (15/100) (85/100) (a.getD idx1 0))).getD idx2 0)) := by
  simp only [phase3StepCore]
  rw [if_pos hdev, if_pos hec, if_neg hns]

/-! ## Claim C10: the Phase 3 clip side effect -/

/-- Claim C10: for a critical pair whose traits both resolve in the registry,
whenever either adjusted score deviates from neutral by more than 0.1, the
Phase 3 step leaves both pair scores inside [0.15, 0.85]; and when the pair
shows no same-side inconsistency (negative expected correlation), the step is
exactly the clip of the two scores — a score outside [0.15, 0.85], such as one
in (0.85, 0.9], is changed by the clip alone. -/
theorem phase3_clamp_side_effect
    (traits : List String) (d a : List ℚ) (t1 t2 : String) (ec : ℚ) (i1 i2 : ℕ)
    (hmem : (t1, t2, ec) ∈ criticalPairs)
    (h1 : idxOf? t1 traits = some i1) (h2 : idxOf? t2 traits = some i2)
    (hne : i1 ≠ i2) (hl1 : i1 < a.length) (hl2 : i2 < a.length)
    (hdev : |a.getD i1 0 - 1/2| > 1/10 ∨ |a.getD i2 0 - 1/2| > 1/10) :
    (15/100 ≤ (phase3Step traits d a (t1, t2, ec)).getD i1 0 ∧
      (phase3Step traits d a (t1, t2, ec)).getD i1 0 ≤ 85/100 ∧
      15/100 ≤ (phase3Step traits d a (t1, t2, ec)).getD i2 0 ∧
      (phase3Step traits d a (t1, t2, ec)).getD i2 0 ≤ 85/100) ∧
    (ec < 0 →
      ¬ ((a.getD i1 0 > 1/2 ∧ a.getD i2 0 > 1/2) ∨
         (a.getD i1 0 < 1/2 ∧ a.getD i2 0 < 1/2)) →
      (phase3Step traits d a (t1, t2, ec)).getD i1 0 =
        clamp (15/100) (85/100) (a.getD i1 0) ∧
      (phase3Step traits d a (t1, t2, ec)).getD i2 0 =
        clamp (15/100) (85/100) (a.getD i2 0)) := by
  rw [phase3Step_eq_core traits d a t1 t2 ec i1 i2 h1 h2]
  constructor
  · obtain ⟨b, hb, hframe, heq⟩ := phase3StepCore_dev d a i1 i2 ec hdev
    rw [heq]
    have hlb1 : i1 < b.length := hb ▸ hl1
    have hlb2 : i2 < (b.set i1 (clamp (15/100) (85/100) (b.getD i1 0))).length := by
      rw [List.length_set, hb]; exact hl2
    have e1 : ((b.set i1 (clamp (15/100) (85/100) (b.getD i1 0))).set i2
        (clamp (15/100) (85/100)
          ((b.set i1 (clamp (15/100) (85/100) (b.getD i1 0))).getD i2 0))).getD i1 0 =
        clamp (15/100) (85/100) (b.getD i1 0) := by
      rw [getD_set_ne _ _ _ _ hne, getD_set_self _ _ _ hlb1]
    have e2 : ((b.set i1 (clamp (15/100) (85/100) (b.getD i1 0))).set i2
        (clamp (15/100) (85/100)
          ((b.set i1 (clamp (15/100) (85/100) (b.getD i1 0))).getD i2 0))).getD i2 0 =
        clamp (15/100) (85/100)
          ((b.set i1 (clamp (15/100) (85/100) (b.getD i1 0))).getD i2 0) :=
      getD_set_self _ _ _ hlb2
    rw [e1, e2]
    exact ⟨le_clamp _ _ _, clamp_le _ (by norm_num), le_clamp _ _ _, clamp_le _ (by norm_num)⟩
  · intro hec hns
    rw [phase3StepCore_noforce d a i1 i2 ec hec hdev hns]
    have e3 : (a.set i1 (clamp (15/100) (85/100) (a.getD i1 0))).getD i2 0 = a.getD i2 0 :=
      getD_set_ne _ _ _ _ (Ne.symm hne)
    constructor
    · rw [getD_set_ne _ _ _ _ hne, getD_set_self _ _ _ hl1]
    · rw [getD_set_self _ _ _ (by rw [List.length_set]; exact hl2), e3]

/-- Witness for phase3_clamp_side_effect: entering Phase 3 with Agreeableness
at 0.88 and Vigilance at 0.2 (no same-side inconsistency), the step moves
0.88 to the clip value, which differs from 0.88. -/
theorem phase3_clamp_side_effect_witness :
    (phase3Step (["Agreeableness", "Vigilance"]) ([1/2, 1/2]) ([22/25, 1/5])
        (("Agreeableness", "Vigilance", -(60/100)))).getD 0 0 =
      clamp (15/100) (85/100) (([22/25, 1/5] : List ℚ).getD 0 0) ∧
    clamp (15/100) (85/100) (([22/25, 1/5] : List ℚ).getD 0 0) ≠
      ([22/25, 1/5] : List ℚ).getD 0 0 := by
  constructor
  · exact ((phase3_clamp_side_effect (["Agreeableness", "Vigilance"]) ([1/2, 1/2])
      ([22/25, 1/5]) ("Agreeableness") ("Vigilance") (-(60/100)) 0 1
      (by norm_num [criticalPairs])
      (by simp [idxOf?]) (by simp [idxOf?]) (by omega)
      (by norm_num) (by norm_num)
      (by left; norm_num [List.getD, abs_of_pos])).2
      (by norm_num)
      (by norm_num [List.getD])).1
  · norm_num [clamp, List.getD, min_def, max_def]

/-! ## Claim C4: critical-pair consistency -/

/-- For a negatively correlated critical pair, as long as both direct scores
are in [0, 1], the Phase 3 pair body sends same-side entry scores (with either
deviating more than 0.1 from neutral) to opposite sides of 0.5. -/
theorem phase3StepCore_neg_opposite (d a : List ℚ) (idx1 idx2 : ℕ) (ec : ℚ)
    (hne : idx1 ≠ idx2) (hl1 : idx1 < a.length) (hl2 : idx2 < a.length)
    (hec : ec < 0)
    (hd1l : 0 ≤ d.getD idx1 0) (hd1u : d.getD idx1 0 ≤ 1)
    (hd2l : 0 ≤ d.getD idx2 0) (hd2u : d.getD idx2 0 ≤ 1)
    (hdev : |a.getD idx1 0 - 1/2| > 1/10 ∨ |a.getD idx2 0 - 1/2| > 1/10)
    (hside : (a.getD idx1 0 > 1/2 ∧ a.getD idx2 0 > 1/2) ∨
             (a.getD idx1 0 < 1/2 ∧ a.getD idx2 0 < 1/2)) :
    ((phase3StepCore d a idx1 idx2 ec).getD idx1 0 - 1/2) *
      ((phase3StepCore d a idx1 idx2 ec).getD idx2 0 - 1/2) < 0 := by
  have habs1 : |d.getD idx1 0 - 1/2| ≤ 1/2 := abs_le.mpr ⟨by linarith, by linarith⟩
  have habs2 : |d.getD idx2 0 - 1/2| ≤ 1/2 := abs_le.mpr ⟨by linarith, by linarith⟩
  have hf1 : (0:ℚ) < (19/10) * (1 - |d.getD idx1 0 - 1/2| * 2 * (4/10)) := by
    nlinarith [abs_nonneg (d.getD idx1 0 - 1/2)]
  have hf2 : (0:ℚ) < (19/10) * (1 - |d.getD idx2 0 - 1/2| * 2 * (4/10)) := by
    nlinarith [abs_nonneg (d.getD idx2 0 - 1/2)]
  have hecabs : (0:ℚ) < |ec| := abs_pos.mpr (ne_of_lt hec)
  simp only [phase3StepCore]
  rw [if_pos hdev, if_pos hec, if_pos hside]
  by_cases hw : |a.getD idx1 0 - 1/2| < |a.getD idx2 0 - 1/2| ∨
      |d.getD idx1 0 - 1/2| * 2 < |d.getD idx2 0 - 1/2| * 2
  · rw [if_pos hw, getD_set_self a idx1 _ hl1, List.set_set,
        getD_set_ne a idx1 idx2 _ (Ne.symm hne),
        getD_set_ne _ idx2 idx1 _ hne, getD_set_self a idx1 _ hl1,
        getD_set_self _ idx2 _ (by rw [List.length_set]; exact hl2)]
    rcases hside with ⟨hs1, hs2⟩ | ⟨hs1, hs2⟩
    · have hpos : (0:ℚ) < (a.getD idx2 0 - 1/2) * |ec| *
          ((19/10) * (1 - |d.getD idx1 0 - 1/2| * 2 * (4/10))) :=
        mul_pos (mul_pos (by linarith) hecabs) hf1
      apply mul_neg_of_neg_of_pos
      · exact sub_neg.mpr (clamp_lt_of_lt (by norm_num) (by linarith))
      · exact sub_pos.mpr (lt_clamp_of_lt (by norm_num) hs2)
    · have hneg : (a.getD idx2 0 - 1/2) * |ec| *
          ((19/10) * (1 - |d.getD idx1 0 - 1/2| * 2 * (4/10))) < 0 :=
        mul_neg_of_neg_of_pos (mul_neg_of_neg_of_pos (by linarith) hecabs) hf1
      apply mul_neg_of_pos_of_neg
      · exact sub_pos.mpr (lt_clamp_of_lt (by norm_num) (by linarith))
      · exact sub_neg.mpr (clamp_lt_of_lt (by norm_num) hs2)
  · rw [if_neg hw, getD_set_ne a idx2 idx1 _ hne,
        getD_set_ne _ idx1 idx2 _ (Ne.symm hne), getD_set_self a idx2 _ hl2,
        getD_set_ne _ idx2 idx1 _ hne,
        getD_set_self _ idx1 _ (by rw [List.length_set]; exact hl1),
        getD_set_self _ idx2 _ (by rw [List.length_set, List.length_set]; exact hl2)]
    rcases hside with ⟨hs1, hs2⟩ | ⟨hs1, hs2⟩
    · have hpos : (0:ℚ) < (a.getD idx1 0 - 1/2) * |ec| *
          ((19/10) * (1 - |d.getD idx2 0 - 1/2| * 2 * (4/10))) :=
        mul_pos (mul_pos (by linarith) hecabs) hf2
      apply mul_neg_of_pos_of_neg
      · exact sub_pos.mpr (lt_clamp_of_lt (by norm_num) hs1)
      · exact sub_neg.mpr (clamp_lt_of_lt (by norm_num) (by linarith))
    · have hneg : (a.getD idx1 0 - 1/2) * |ec| *
          ((19/10) * (1 - |d.getD idx2 0 - 1/2| * 2 * (4/10))) < 0 :=
        mul_neg_of_neg_of_pos (mul_neg_of_neg_of_pos (by linarith) hecabs) hf2
      apply mul_neg_of_neg_of_pos
      · exact sub_neg.mpr (clamp_lt_of_lt (by norm_num) hs1)
      · exact sub_pos.mpr (lt_clamp_of_lt (by norm_num) (by linarith))

/-- The twelve trait names of the model in registry order (the values of
trait_abbr_to_full, quiz_model.py lines 106-119). -/
def stdTraits : List String :=
  ["Honesty-Humility", "Emotionality", "Extraversion", "Agreeableness",
   "Conscientiousness", "Openness", "Dominance", "Vigilance",
   "Self-Transcendence", "Abstract Orientation", "Value Orientation", "Flexibility"]

/-- A Phase 3 pair whose first trait is missing from the registry is skipped. -/
theorem phase3Step_skip_left (traits : List String) (d a : List ℚ)
    (p : String × String × ℚ) (h : idxOf? p.1 traits = none) :
    phase3Step traits d a p = a := by
  unfold phase3Step
  rw [h]

set_option maxHeartbeats 1000000 in
/-- Counterexample to claim C4: registry containing Agreeableness (index 0),
Vigilance (index 1) and Dominance (index 2); neutral direct scores; Phase 3
entry scores 0.55, 0.8, 0.13.  The pair (Agreeableness, Vigilance) satisfies
the claim hypotheses on entry (same side of 0.5, Vigilance deviating more than
0.1), the first critical pair duly forces Agreeableness to 0.158 — but the
next critical pair (Agreeableness, Dominance) then finds Agreeableness and
Dominance both low and forces Agreeableness back up to 0.85, so on exit from
Phase 3 Agreeableness (0.85) and Vigilance (0.8) sit on the same side of 0.5
and the sign of (score - 0.5) does not differ. -/
theorem critical_pair_exit_counterexample :
    (((11:ℚ)/20 > 1/2 ∧ (4:ℚ)/5 > 1/2) ∧ |(4:ℚ)/5 - 1/2| > 1/10) ∧
    phase3 (["Agreeableness", "Vigilance", "Dominance"]) ([1/2, 1/2, 1/2])
        ([11/20, 4/5, 13/100]) = [17/20, 4/5, 3/20] ∧
    ((17:ℚ)/20 - 1/2) * ((4:ℚ)/5 - 1/2) > 0 := by
  refine ⟨⟨⟨by norm_num, by norm_num⟩, ?_⟩, ?_, by norm_num⟩
  · rw [show |(4:ℚ)/5 - 1/2| = 3/10 by rw [abs_of_pos] <;> norm_num]
    norm_num
  · have e1 : phase3Step (["Agreeableness", "Vigilance", "Dominance"]) ([1/2, 1/2, 1/2])
        ([11/20, 4/5, 13/100]) (("Agreeableness", "Vigilance", -((60:ℚ)/100))) =
        [79/500, 4/5, 13/100] := by
      rw [phase3Step_eq_core _ _ _ _ _ _ 0 1 (by simp [idxOf?]) (by simp [idxOf?])]
      norm_num [phase3StepCore, clamp, List.getD, List.get?, List.set,
        abs_eq_max_neg, max_def, min_def]
    have e2 : phase3Step (["Agreeableness", "Vigilance", "Dominance"]) ([1/2, 1/2, 1/2])
        ([79/500, 4/5, 13/100]) (("Agreeableness", "Dominance", -((55:ℚ)/100))) =
        [17/20, 4/5, 3/20] := by
      rw [phase3Step_eq_core _ _ _ _ _ _ 0 2 (by simp [idxOf?]) (by simp [idxOf?])]
      norm_num [phase3StepCore, clamp, List.getD, List.get?, List.set,
        abs_eq_max_neg, max_def, min_def]
    unfold phase3 criticalPairs
    simp only [List.foldl_cons, List.foldl_nil]
    rw [e1, e2,
      phase3Step_skip_left _ _ _ _ (by simp [idxOf?]),
      phase3Step_skip_left _ _ _ _ (by simp [idxOf?]),
      phase3Step_skip_left _ _ _ _ (by simp [idxOf?]),
      phase3Step_skip_left _ _ _ _ (by simp [idxOf?])]

set_option maxHeartbeats 1000000 in
/-- Claim C4 amended: the exit-of-Phase-3 guarantee holds for a critical
negatively-correlated pair whose traits no later critical pair revisits — here
(Conscientiousness, Flexibility), indices 4 and 11 of the standard registry:
if on entry either adjusted score deviates from neutral by more than 0.1 and
both sit on the same side of 0.5 (direct scores in [0, 1]), then on exit from
Phase 3 the two scores sit on opposite sides of 0.5.  For earlier pairs that
share a trait with a later critical pair (Agreeableness-Vigilance followed by
Agreeableness-Dominance) the later pair can force the shared trait back to the
same side, as the counterexample shows. -/
theorem critical_pair_consistency_amended (d a : List ℚ) (ha : a.length = 12)
    (hd1l : 0 ≤ d.getD 4 0) (hd1u : d.getD 4 0 ≤ 1)
    (hd2l : 0 ≤ d.getD 11 0) (hd2u : d.getD 11 0 ≤ 1)
    (hdev : |a.getD 4 0 - 1/2| > 1/10 ∨ |a.getD 11 0 - 1/2| > 1/10)
    (hside : (a.getD 4 0 > 1/2 ∧ a.getD 11 0 > 1/2) ∨
             (a.getD 4 0 < 1/2 ∧ a.getD 11 0 < 1/2)) :
    idxOf? ("Conscientiousness") stdTraits = some 4 ∧
    idxOf? ("Flexibility") stdTraits = some 11 ∧
    ("Conscientiousness", "Flexibility", -((72:ℚ)/100)) ∈ criticalPairs ∧
    ((phase3 stdTraits d a).getD 4 0 - 1/2) *
      ((phase3 stdTraits d a).getD 11 0 - 1/2) < 0 := by
  refine ⟨by simp [idxOf?, stdTraits], by simp [idxOf?, stdTraits],
    by norm_num [criticalPairs], ?_⟩
  have iAg : idxOf? ("Agreeableness") stdTraits = some 3 := by simp [idxOf?, stdTraits]
  have iVi : idxOf? ("Vigilance") stdTraits = some 7 := by simp [idxOf?, stdTraits]
  have iDo : idxOf? ("Dominance") stdTraits = some 6 := by simp [idxOf?, stdTraits]
  have iCo : idxOf? ("Conscientiousness") stdTraits = some 4 := by simp [idxOf?, stdTraits]
  have iFl : idxOf? ("Flexibility") stdTraits = some 11 := by simp [idxOf?, stdTraits]
  have iEx : idxOf? ("Extraversion") stdTraits = some 2 := by simp [idxOf?, stdTraits]
  have iOp : idxOf? ("Openness") stdTraits = some 5 := by simp [idxOf?, stdTraits]
  have iST : idxOf? ("Self-Transcendence") stdTraits = some 8 := by simp [idxOf?, stdTraits]
  have iAO : idxOf? ("Abstract Orientation") stdTraits = some 9 := by simp [idxOf?, stdTraits]
  unfold phase3 criticalPairs
  simp only [List.foldl_cons, List.foldl_nil]
  rw [phase3Step_eq_core stdTraits d _ _ _ _ 4 11 iCo iFl]
  rw [phase3Step_getD_ne stdTraits d _ _ _ _ 5 9 4 iOp iAO (by omega) (by omega),
      phase3Step_getD_ne stdTraits d _ _ _ _ 5 8 4 iOp iST (by omega) (by omega),
      phase3Step_getD_ne stdTraits d _ _ _ _ 2 6 4 iEx iDo (by omega) (by omega),
      phase3Step_getD_ne stdTraits d _ _ _ _ 5 9 11 iOp iAO (by omega) (by omega),
      phase3Step_getD_ne stdTraits d _ _ _ _ 5 8 11 iOp iST (by omega) (by omega),
      phase3Step_getD_ne stdTraits d _ _ _ _ 2 6 11 iEx iDo (by omega) (by omega)]
  have h4 : (phase3Step stdTraits d
      (phase3Step stdTraits d a (("Agreeableness", "Vigilance", -((60:ℚ)/100))))
      (("Agreeableness", "Dominance", -((55:ℚ)/100)))).getD 4 0 = a.getD 4 0 := by
    rw [phase3Step_getD_ne stdTraits d _ _ _ _ 3 6 4 iAg iDo (by omega) (by omega),
        phase3Step_getD_ne stdTraits d _ _ _ _ 3 7 4 iAg iVi (by omega) (by omega)]
  have h11 : (phase3Step stdTraits d
      (phase3Step stdTraits d a (("Agreeableness", "Vigilance", -((60:ℚ)/100))))
      (("Agreeableness", "Dominance", -((55:ℚ)/100)))).getD 11 0 = a.getD 11 0 := by
    rw [phase3Step_getD_ne stdTraits d _ _ _ _ 3 6 11 iAg iDo (by omega) (by omega),
        phase3Step_getD_ne stdTraits d _ _ _ _ 3 7 11 iAg iVi (by omega) (by omega)]
  have hlen : (phase3Step stdTraits d
      (phase3Step stdTraits d a (("Agreeableness", "Vigilance", -((60:ℚ)/100))))
      (("Agreeableness", "Dominance", -((55:ℚ)/100)))).length = a.length := by
    rw [phase3Step_length, phase3Step_length]
  exact phase3StepCore_neg_opposite d _ 4 11 (-((72:ℚ)/100)) (by omega)
    (by rw [hlen, ha]; omega) (by rw [hlen, ha]; omega) (by norm_num)
    hd1l hd1u hd2l hd2u
    (by rw [h4, h11]; exact hdev) (by rw [h4, h11]; exact hside)

/-- Witness for critical_pair_consistency_amended: Conscientiousness and
Flexibility both at 0.8 on entry, everything else neutral. -/
theorem critical_pair_consistency_amended_witness :
    ((phase3 stdTraits ([1/2, 1/2, 1/2, 1/2, 1/2, 1/2, 1/2, 1/2, 1/2, 1/2, 1/2, 1/2])
        ([1/2, 1/2, 1/2, 1/2, 4/5, 1/2, 1/2, 1/2, 1/2, 1/2, 1/2, 4/5])).getD 4 0 - 1/2) *
      ((phase3 stdTraits ([1/2, 1/2, 1/2, 1/2, 1/2, 1/2, 1/2, 1/2, 1/2, 1/2, 1/2, 1/2])
        ([1/2, 1/2, 1/2, 1/2, 4/5, 1/2, 1/2, 1/2, 1/2, 1/2, 1/2, 4/5])).getD 11 0 - 1/2) < 0 :=
  (critical_pair_consistency_amended
    ([1/2, 1/2, 1/2, 1/2, 1/2, 1/2, 1/2, 1/2, 1/2, 1/2, 1/2, 1/2])
    ([1/2, 1/2, 1/2, 1/2, 4/5, 1/2, 1/2, 1/2, 1/2, 1/2, 1/2, 4/5]) rfl
    (show (0:ℚ) ≤ 1/2 by norm_num) (show (1:ℚ)/2 ≤ 1 by norm_num)
    (show (0:ℚ) ≤ 1/2 by norm_num) (show (1:ℚ)/2 ≤ 1 by norm_num)
    (Or.inl (show |(4:ℚ)/5 - 1/2| > 1/10 by
      rw [show |(4:ℚ)/5 - 1/2| = 3/10 by rw [abs_of_pos] <;> norm_num]
      norm_num))
    (Or.inl ⟨show (4:ℚ)/5 > 1/2 by norm_num, show (4:ℚ)/5 > 1/2 by norm_num⟩)).2.2.2

/-! ## Claim C1: boundedness of the trait score vector -/

theorem baseScore_bounds_prod (s : QuizState) (t : String) (hm : s.test_mode = false) :
    1/10 ≤ baseScore s t ∧ baseScore s t ≤ 9/10 := by
  unfold baseScore
  simp only [hm, Bool.false_eq_true, if_false]
  split_ifs
  · exact ⟨le_clamp _ _ _, clamp_le _ (by norm_num)⟩
  · norm_num

theorem baseScore_bounds_test (s : QuizState) (t : String) (hm : s.test_mode = true) :
    0 ≤ baseScore s t ∧ baseScore s t ≤ 1 := by
  unfold baseScore
  simp only [hm, if_true]
  split_ifs
  · exact ⟨le_clamp _ _ _, clamp_le _ (by norm_num)⟩
  · norm_num

theorem calcBaseScores_inrange (s : QuizState) (hm : s.test_mode = false) :
    InRange (1/10) (9/10) (calcBaseScores s) := by
  apply InRange.of_forall_mem
  intro x hx
  obtain ⟨t, _, rfl⟩ := List.mem_map.mp hx
  exact baseScore_bounds_prod s t hm

theorem phase1One_bounds (tc : List (List ℚ)) (inp dir : List ℚ) (n : ℕ) (pf : ℚ)
    (i : ℕ) (hi : i < inp.length) (hinp : InRange (1/10) (9/10) inp) :
    1/10 ≤ phase1One tc inp dir n pf i ∧ phase1One tc inp dir n pf i ≤ 9/10 := by
  simp only [phase1One]
  split_ifs
  · exact hinp i hi
  · exact ⟨le_trans (by norm_num) (le_clamp _ _ _),
           le_trans (clamp_le _ (by norm_num)) (by norm_num)⟩
  · exact hinp i hi

theorem phase1_inrange (tc : List (List ℚ)) (pc : PatternCounts) (inp dir : List ℚ)
    (hinp : InRange (1/10) (9/10) inp) :
    InRange (1/10) (9/10) (phase1 tc pc inp dir) := by
  intro k hk
  have hk' : k < inp.length := by simpa [phase1] using hk
  unfold phase1
  rw [getD_range_map _ hk']
  exact phase1One_bounds tc inp dir inp.length (patternFactor pc) k hk' hinp

theorem floorIf_bounds (mask : Prop) [Decidable mask] (c a : ℚ)
    (h1 : 1/10 ≤ a) (h2 : a ≤ 9/10) (hc1 : 1/10 ≤ c) (hc2 : c ≤ 9/10) :
    1/10 ≤ floorIf mask c a ∧ floorIf mask c a ≤ 9/10 := by
  unfold floorIf
  split_ifs
  · exact ⟨le_trans h1 (le_max_left _ _), max_le h2 hc2⟩
  · exact ⟨h1, h2⟩

theorem ceilIf_bounds (mask : Prop) [Decidable mask] (c a : ℚ)
    (h1 : 1/10 ≤ a) (h2 : a ≤ 9/10) (hc1 : 1/10 ≤ c) (hc2 : c ≤ 9/10) :
    1/10 ≤ ceilIf mask c a ∧ ceilIf mask c a ≤ 9/10 := by
  unfold ceilIf
  split_ifs
  · exact ⟨le_min h1 hc1, le_trans (min_le_left _ _) h2⟩
  · exact ⟨h1, h2⟩

theorem phase4One_bounds (dv av : ℚ) (h1 : 1/10 ≤ av) (h2 : av ≤ 9/10) :
    1/10 ≤ phase4One dv av ∧ phase4One dv av ≤ 9/10 := by
  unfold phase4One
  have s1 := floorIf_bounds (dv > 9/10) (65/100) av h1 h2 (by norm_num) (by norm_num)
  have s2 := floorIf_bounds (dv > 8/10 ∧ dv ≤ 9/10) (1/2) _ s1.1 s1.2 (by norm_num) (by norm_num)
  have s3 := floorIf_bounds (dv > 7/10 ∧ dv ≤ 8/10) (35/100) _ s2.1 s2.2 (by norm_num) (by norm_num)
  have s4 := floorIf_bounds (dv > 6/10 ∧ dv ≤ 7/10) (25/100) _ s3.1 s3.2 (by norm_num) (by norm_num)
  have s5 := ceilIf_bounds (dv < 1/10) (35/100) _ s4.1 s4.2 (by norm_num) (by norm_num)
  have s6 := ceilIf_bounds (1/10 ≤ dv ∧ dv < 2/10) (1/2) _ s5.1 s5.2 (by norm_num) (by norm_num)
  exact ceilIf_bounds (2/10 ≤ dv ∧ dv < 3/10) (65/100) _ s6.1 s6.2 (by norm_num) (by norm_num)

theorem phase4_mem_bounds (d a : List ℚ) (x : ℚ) (ha : InRange (1/10) (9/10) a)
    (hx : x ∈ phase4 d a) : 1/10 ≤ x ∧ x ≤ 9/10 := by
  obtain ⟨k, hkd, hka, rfl⟩ := mem_zipWith_decomp hx
  exact phase4One_bounds _ _ (ha k hka).1 (ha k hka).2

theorem pairSpecificParams_min_bounds {t1 t2 : String} {p : PairParams}
    (h : pairSpecificParams t1 t2 = some p) :
    3/20 ≤ p.min_score ∧ p.min_score ≤ 21/100 := by
  unfold pairSpecificParams at h
  split_ifs at h <;>
    first
      | (injection h with h2; subst h2; norm_num)
      | exact absurd h (by simp)

theorem getPairParams_min_bounds (t1 t2 : String) :
    3/20 ≤ (getPairParams t1 t2).min_score ∧ (getPairParams t1 t2).min_score ≤ 21/100 := by
  unfold getPairParams
  cases h1 : pairSpecificParams t1 t2 with
  | some p => exact pairSpecificParams_min_bounds h1
  | none =>
    cases h2 : pairSpecificParams t2 t1 with
    | some p => exact pairSpecificParams_min_bounds h2
    | none => norm_num

/-- The negative-correlation adjustment rewrites at most the two pair indices
and then clamps both of them to their guaranteed range. -/
theorem adjustNeg_cases (d : List ℚ) (i j : ℕ) (corr ff ms : ℚ) (a : List ℚ) :
    ∃ b : List ℚ, b.length = a.length ∧
      (∀ k, k ≠ i → k ≠ j → b.getD k 0 = a.getD k 0) ∧
      adjustNeg d i j corr ff ms a =
        (b.set i (negClip ms (strongDirect (d.getD i 0)) (b.getD i 0))).set j
          (negClip ms (strongDirect (d.getD j 0))
            ((b.set i (negClip ms (strongDirect (d.getD i 0)) (b.getD i 0))).getD j 0)) := by
  simp only [adjustNeg]
  split_ifs with h1 h2
  · exact ⟨_, List.length_set .., fun k hk1 hk2 => getD_set_ne _ _ _ _ hk1, rfl⟩
  · exact ⟨_, List.length_set .., fun k hk1 hk2 => getD_set_ne _ _ _ _ hk2, rfl⟩
  · exact ⟨a, rfl, fun k hk1 hk2 => rfl, rfl⟩

/-- The positive-correlation adjustment rewrites at most the two pair indices
and then clamps both of them to [min_score, 0.9]. -/
theorem adjustPos_cases (d : List ℚ) (i j : ℕ) (corr ff ms : ℚ) (a : List ℚ) :
    ∃ b : List ℚ, b.length = a.length ∧
      (∀ k, k ≠ i → k ≠ j → b.getD k 0 = a.getD k 0) ∧
      adjustPos d i j corr ff ms a =
        (b.set i (posClip ms (b.getD i 0))).set j
          (posClip ms ((b.set i (posClip ms (b.getD i 0))).getD j 0)) := by
  simp only [adjustPos]
  split_ifs with h1 h2
  · exact ⟨_, List.length_set .., fun k hk1 hk2 => getD_set_ne _ _ _ _ hk1, rfl⟩
  · exact ⟨_, List.length_set .., fun k hk1 hk2 => getD_set_ne _ _ _ _ hk2, rfl⟩
  · exact ⟨a, rfl, fun k hk1 hk2 => rfl, rfl⟩

theorem negClip_bounds (ms : ℚ) (strong : Bool) (x : ℚ)
    (hms1 : 3/20 ≤ ms) (hms2 : ms ≤ 21/100) :
    1/10 ≤ negClip ms strong x ∧ negClip ms strong x ≤ 9/10 := by
  unfold negClip
  split_ifs <;>
    exact ⟨le_trans (by linarith) (le_max_left _ _),
           max_le (by linarith) (min_le_left _ _)⟩

theorem posClip_bounds (ms x : ℚ) (hms1 : 3/20 ≤ ms) (hms2 : ms ≤ 21/100) :
    1/10 ≤ posClip ms x ∧ posClip ms x ≤ 9/10 :=
  ⟨le_trans (by linarith) (le_max_left _ _),
   max_le (by linarith) (min_le_left _ _)⟩

theorem adjustNeg_inrange (d : List ℚ) (i j : ℕ) (corr ff ms : ℚ) (a : List ℚ)
    (hms1 : 3/20 ≤ ms) (hms2 : ms ≤ 21/100) (ha : InRange (1/10) (9/10) a) :
    InRange (1/10) (9/10) (adjustNeg d i j corr ff ms a) := by
  obtain ⟨b, hb, hframe, heq⟩ := adjustNeg_cases d i j corr ff ms a
  intro k hk
  rw [heq] at hk ⊢
  have hk' : k < a.length := by simpa [List.length_set, hb] using hk
  by_cases hkj : k = j
  · subst hkj
    rw [getD_set_self _ _ _ (by rw [List.length_set, hb]; exact hk')]
    exact negClip_bounds _ _ _ hms1 hms2
  · rw [getD_set_ne _ _ _ _ hkj]
    by_cases hki : k = i
    · subst hki
      rw [getD_set_self _ _ _ (hb ▸ hk')]
      exact negClip_bounds _ _ _ hms1 hms2
    · rw [getD_set_ne _ _ _ _ hki, hframe k hki hkj]
      exact ha k hk'

theorem adjustPos_inrange (d : List ℚ) (i j : ℕ) (corr ff ms : ℚ) (a : List ℚ)
    (hms1 : 3/20 ≤ ms) (hms2 : ms ≤ 21/100) (ha : InRange (1/10) (9/10) a) :
    InRange (1/10) (9/10) (adjustPos d i j corr ff ms a) := by
  obtain ⟨b, hb, hframe, heq⟩ := adjustPos_cases d i j corr ff ms a
  intro k hk
  rw [heq] at hk ⊢
  have hk' : k < a.length := by simpa [List.length_set, hb] using hk
  by_cases hkj : k = j
  · subst hkj
    rw [getD_set_self _ _ _ (by rw [List.length_set, hb]; exact hk')]
    exact posClip_bounds _ _ hms1 hms2
  · rw [getD_set_ne _ _ _ _ hkj]
    by_cases hki : k = i
    · subst hki
      rw [getD_set_self _ _ _ (hb ▸ hk')]
      exact posClip_bounds _ _ hms1 hms2
    · rw [getD_set_ne _ _ _ _ hki, hframe k hki hkj]
      exact ha k hk'

theorem phase2Step_inrange (traits : List String) (tc : List (List ℚ)) (d a : List ℚ)
    (ij : ℕ × ℕ) (ha : InRange (1/10) (9/10) a) :
    InRange (1/10) (9/10) (phase2Step traits tc d a ij) := by
  simp only [phase2Step]
  split_ifs
  · exact ha
  · exact adjustNeg_inrange _ _ _ _ _ _ _
      (getPairParams_min_bounds _ _).1 (getPairParams_min_bounds _ _).2 ha
  · exact adjustPos_inrange _ _ _ _ _ _ _
      (getPairParams_min_bounds _ _).1 (getPairParams_min_bounds _ _).2 ha
  · exact ha

theorem phase2_inrange (traits : List String) (tc : List (List ℚ)) (d a : List ℚ)
    (ha : InRange (1/10) (9/10) a) :
    InRange (1/10) (9/10) (phase2 traits tc d a) :=
  foldl_preserve (fun a ij ha => phase2Step_inrange traits tc d a ij ha) _ a ha

theorem phase3StepCore_inrange (d a : List ℚ) (idx1 idx2 : ℕ) (ec : ℚ)
    (ha : InRange (1/10) (9/10) a) :
    InRange (1/10) (9/10) (phase3StepCore d a idx1 idx2 ec) := by
  rcases phase3StepCore_cases d a idx1 idx2 ec with h | ⟨b, hb, hframe, h⟩
  · rw [h]; exact ha
  · intro k hk
    rw [h] at hk ⊢
    have hk' : k < a.length := by simpa [List.length_set, hb] using hk
    by_cases hkj : k = idx2
    · subst hkj
      rw [getD_set_self _ _ _ (by rw [List.length_set, hb]; exact hk')]
      exact ⟨le_trans (by norm_num) (le_clamp _ _ _),
             le_trans (clamp_le _ (by norm_num)) (by norm_num)⟩
    · rw [getD_set_ne _ _ _ _ hkj]
      by_cases hki : k = idx1
      · subst hki
        rw [getD_set_self _ _ _ (hb ▸ hk')]
        exact ⟨le_trans (by norm_num) (le_clamp _ _ _),
               le_trans (clamp_le _ (by norm_num)) (by norm_num)⟩
      · rw [getD_set_ne _ _ _ _ hki, hframe k hki hkj]
        exact ha k hk'

theorem phase3Step_inrange (traits : List String) (d a : List ℚ)
    (p : String × String × ℚ) (ha : InRange (1/10) (9/10) a) :
    InRange (1/10) (9/10) (phase3Step traits d a p) := by
  unfold phase3Step
  cases hx : idxOf? p.1 traits with
  | none => exact ha
  | some i1 =>
    cases hy : idxOf? p.2.1 traits with
    | none => exact ha
    | some i2 => exact phase3StepCore_inrange d a i1 i2 p.2.2 ha

theorem phase3_inrange (traits : List String) (d a : List ℚ)
    (ha : InRange (1/10) (9/10) a) :
    InRange (1/10) (9/10) (phase3 traits d a) :=
  foldl_preserve (fun a p ha => phase3Step_inrange traits d a p ha) _ a ha

/-- Claim C1: every entry of the recomputed trait score vector lies in
[0.1, 0.9] in production mode and in [0, 1] in relaxed test mode, for every
engine state (hence for every answer sequence). -/
theorem trait_scores_bounded (s : QuizState) (x : ℚ) (hx : x ∈ calculateScoresVec s) :
    (s.test_mode = false → 1/10 ≤ x ∧ x ≤ 9/10) ∧
    (s.test_mode = true → 0 ≤ x ∧ x ≤ 1) := by
  constructor
  · intro hm
    unfold calculateScoresVec at hx
    simp only [hm, Bool.false_eq_true, if_false] at hx
    by_cases hw : totalWeight s > 10
    · rw [if_pos hw] at hx
      exact phase4_mem_bounds _ _ x
        (phase3_inrange _ _ _
          (phase2_inrange _ _ _ _
            (phase1_inrange _ _ _ _ (calcBaseScores_inrange s hm)))) hx
    · rw [if_neg hw] at hx
      exact (calcBaseScores_inrange s hm).mem x hx
  · intro hm
    unfold calculateScoresVec at hx
    simp only [hm, if_true] at hx
    obtain ⟨t, _, rfl⟩ := List.mem_map.mp hx
    exact baseScore_bounds_test s t hm

/-- Witness for trait_scores_bounded: the fresh sample state computes the
score vector [0.5]. -/
theorem trait_scores_bounded_witness :
    ((1:ℚ)/2 ∈ calculateScoresVec sampleState) ∧
    (sampleState.test_mode = false → 1/10 ≤ (1:ℚ)/2 ∧ (1:ℚ)/2 ≤ 9/10) ∧
    (sampleState.test_mode = true → 0 ≤ (1:ℚ)/2 ∧ (1:ℚ)/2 ≤ 1) := by
  have hmem : (1:ℚ)/2 ∈ calculateScoresVec sampleState := by
    rw [show calculateScoresVec sampleState = [1/2] from by
      norm_num [calculateScoresVec, calcBaseScores, baseScore, totalWeight,
        sampleState, List.dedup]]
    simp
  exact ⟨hmem, trait_scores_bounded sampleState (1/2) hmem⟩

end Personify
